import Mathlib

/-!
Shallow embedding of `src/host-macro/src/characteristic.rs`: the attribute
grammar parser for BLE GATT characteristic annotations (`CharacteristicArgs::parse`),
the argument record (`CharacteristicArgs`, `DescriptorArgs`) and the descriptor
assembly (`Characteristic::new`).

The external UUID parser `Uuid::from_string` lives in `crate::uuid`, outside the
given sources; the spec declares it an opaque collaborator of type
`parse(text: string) -> Result<Uuid, ParseError>`.  The whole development is
therefore parametric over the UUID value type `U` and a function
`fromString : String → Except String U` standing for `Uuid::from_string`.

Rust `Result<T, syn::Error>` is embedded as `Except String T`: every error of
this module carries a human readable message (spans are used only for
diagnostic attribution and are not modelled, except for the span field that
`Characteristic::new` copies from the field type).
-/

set_option autoImplicit false

/-- Quote character (ASCII 39), used inside several diagnostic strings. -/
def quoteCh : String := String.singleton (Char.ofNat 39)

/-- Backtick character (ASCII 96), used in the syn separator diagnostic. -/
def bq : String := String.singleton (Char.ofNat 96)

/-- An opaque Rust expression as stored by the parser: the right-hand side of
`value = <expr>` is kept as unevaluated syntax.  `lit` is a string literal
expression, `identExpr` a plain identifier, `other` any other expression,
rendered by its token text. -/
inductive Expr where
  | lit (s : String)
  | identExpr (s : String)
  | other (s : String)
  deriving DecidableEq, Repr

/-- The token blob standing after `=` in one meta item, classified by what it
parses as under syn: exactly a string literal, exactly a plain identifier,
some other well-formed expression, or tokens forming no expression at all. -/
inductive Rhs where
  | str (s : String)
  | identTok (s : String)
  | otherExpr (s : String)
  | malformed (s : String)
  deriving DecidableEq, Repr

/-- The path of a meta item: either a single plain identifier (`meta.path.get_ident()`
returns `Some`) or a longer path such as `a::b` (`get_ident()` returns `None`). -/
inductive MetaPath where
  | ident (s : String)
  | nonIdent (s : String)
  deriving DecidableEq, Repr

/-- One comma-separated item of the attribute annotation: a path, optionally
followed by `=` and a value token blob.  A bare keyword has `value = none`. -/
structure MetaItem where
  path : MetaPath
  value : Option Rhs
  deriving DecidableEq, Repr

/-- Embeds `value.parse::<LitStr>()` (the inner text of the literal is returned,
as `LitStr::value` produces it). -/
def parseLitStr : Rhs → Except String String
  | Rhs.str s => Except.ok s
  | _ => Except.error "expected string literal"

/-- Embeds `value.parse::<syn::Ident>()`. -/
def parseIdent : Rhs → Except String String
  | Rhs.identTok s => Except.ok s
  | _ => Except.error "expected identifier"

/-- Embeds `value.parse::<syn::Expr>()`: a string literal and an identifier are
both expressions; only a malformed blob fails. -/
def parseExpr : Rhs → Except String Expr
  | Rhs.str s => Except.ok (Expr.lit s)
  | Rhs.identTok s => Except.ok (Expr.identExpr s)
  | Rhs.otherExpr s => Except.ok (Expr.other s)
  | Rhs.malformed _ => Except.error "expected an expression"

/-- `DescriptorArgs` of the source: required UUID, optional value expression. -/
structure DescriptorArgs (U : Type) where
  _uuid : U
  _value : Option Expr
  deriving Repr

/-- `CharacteristicArgs` of the source, parametric over the opaque UUID type. -/
structure CharacteristicArgs (U : Type) where
  uuid : Option U
  read : Bool
  write : Bool
  write_without_response : Bool
  notify : Bool
  indicate : Bool
  value : Option Expr
  on_write : Option String
  on_read : Option String
  app_managed : Bool
  _descriptor : List (DescriptorArgs U)
  deriving Repr

/-- `CharacteristicArgs::default()`: all flags false, all optionals empty,
empty descriptor sequence. -/
def CharacteristicArgs.default (U : Type) : CharacteristicArgs U :=
  { uuid := none
    read := false
    write := false
    write_without_response := false
    notify := false
    indicate := false
    value := none
    on_write := none
    on_read := none
    app_managed := false
    _descriptor := [] }

/-- Diagnostic of `Error::custom("no ident")` at line 93 of the source. -/
def noIdentMsg : String := "no ident"

/-- Diagnostic at line 97 of the source (note the two spaces before `i.e.`):
`uuid must be followed by '= [data]'.  i.e. uuid = '0x2A37'`. -/
def uuidValueMsg : String :=
  "uuid must be followed by " ++ quoteCh ++ "= [data]" ++ quoteCh ++ ".  i.e. uuid = " ++
    quoteCh ++ "0x2A37" ++ quoteCh

/-- Diagnostic at line 109 of the source (two spaces before `i.e.`). -/
def valueValueMsg : String :=
  "value must be followed by " ++ quoteCh ++ "= [data]" ++ quoteCh ++ ".  i.e. value = " ++
    quoteCh ++ "hello" ++ quoteCh

/-- Diagnostic at line 113 of the source (the example callback name carries the
source's own spelling `characterisic_on_write`). -/
def onWriteValueMsg : String :=
  "on_write must be followed by " ++ quoteCh ++ "= [callback]" ++ quoteCh ++
    ". i.e. on_write = characterisic_on_write"

/-- Diagnostic at line 117 of the source. -/
def onReadValueMsg : String :=
  "on_read must be followed by " ++ quoteCh ++ "= [callback]" ++ quoteCh ++
    ". i.e. on_read = characteristic_on_read"

/-- The missing-UUID diagnostic of the post-pass validation (line 130). -/
def missingUuidMsg : String := "Characteristic must have a UUID"

/-- Head of the unsupported-key diagnostic, up to and including the opening
quote around the offending key. -/
def unsupportedHead : String := "Unsupported characteristic property: " ++ quoteCh

/-- Tail of the unsupported-key diagnostic: the closing quote and the
enumeration of every supported property. -/
def unsupportedTail : String :=
  quoteCh ++ ".\nSupported properties are: uuid, read, write, write_without_response, notify, indicate, value, on_read, on_write, app_managed"

/-- The unsupported-key diagnostic of lines 121-125, with the offending key
interpolated. -/
def unsupportedMsg (other : String) : String :=
  unsupportedHead ++ other ++ unsupportedTail

/-- Diagnostic syn raises when, after the closure handled one meta item, the
remaining tokens of the item were not consumed (a bare-keyword arm given a
`= value`): the nested-meta loop then fails to parse the separating comma. -/
def expectedCommaMsg : String := "expected " ++ bq ++ "," ++ bq

/-- The ten keys of the dispatch table of `CharacteristicArgs::parse`, in the
order the unsupported-key diagnostic enumerates them. -/
def supportedKeys : List String :=
  ["uuid", "read", "write", "write_without_response", "notify", "indicate",
    "value", "on_read", "on_write", "app_managed"]

/-- The six bare capability keys. -/
def flagKeys : List String :=
  ["read", "write", "write_without_response", "notify", "indicate", "app_managed"]

/-- Models syn finishing one nested-meta item after a bare-keyword arm: the arm
consumed no value, so any `= value` tokens are still in the stream and the
loop's comma parse fails. -/
def finishBare {U : Type} (args : CharacteristicArgs U) (item : MetaItem) :
    Except String (CharacteristicArgs U) :=
  match item.value with
  | none => Except.ok args
  | some _ => Except.error expectedCommaMsg

/-- The body of the `parse_nested_meta` closure of `CharacteristicArgs::parse`
(lines 92-127) for one meta item, acting on the accumulator `args`.  The Rust
`match` on the key string is sequential string comparison, rendered as an
if-chain.  `fromString` stands for the external `Uuid::from_string`. -/
def processItem {U : Type} (fromString : String → Except String U)
    (args : CharacteristicArgs U) (item : MetaItem) :
    Except String (CharacteristicArgs U) :=
  match item.path with
  | MetaPath.nonIdent _ => Except.error noIdentMsg
  | MetaPath.ident key =>
    if key = "uuid" then
      match item.value with
      | none => Except.error uuidValueMsg
      | some rhs =>
        match parseLitStr rhs with
        | Except.error e => Except.error e
        | Except.ok s =>
          match fromString s with
          | Except.error e => Except.error e
          | Except.ok u => Except.ok { args with uuid := some u }
    else if key = "read" then finishBare { args with read := true } item
    else if key = "write" then finishBare { args with write := true } item
    else if key = "write_without_response" then
      finishBare { args with write_without_response := true } item
    else if key = "notify" then finishBare { args with notify := true } item
    else if key = "indicate" then finishBare { args with indicate := true } item
    else if key = "value" then
      match item.value with
      | none => Except.error valueValueMsg
      | some rhs =>
        match parseExpr rhs with
        | Except.error e => Except.error e
        | Except.ok e => Except.ok { args with value := some e }
    else if key = "on_write" then
      match item.value with
      | none => Except.error onWriteValueMsg
      | some rhs =>
        match parseIdent rhs with
        | Except.error e => Except.error e
        | Except.ok c => Except.ok { args with on_write := some c }
    else if key = "on_read" then
      match item.value with
      | none => Except.error onReadValueMsg
      | some rhs =>
        match parseIdent rhs with
        | Except.error e => Except.error e
        | Except.ok c => Except.ok { args with on_read := some c }
    else if key = "app_managed" then finishBare { args with app_managed := true } item
    else Except.error (unsupportedMsg key)

/-- The `attribute.parse_nested_meta(...)` loop: left-to-right over the items,
fail-fast on the first error. -/
def parseNestedMeta {U : Type} (fromString : String → Except String U) :
    List MetaItem → CharacteristicArgs U → Except String (CharacteristicArgs U)
  | [], args => Except.ok args
  | item :: rest, args =>
    match processItem fromString args item with
    | Except.error e => Except.error e
    | Except.ok args' => parseNestedMeta fromString rest args'

/-- `CharacteristicArgs::parse` (lines 90-133): run the nested-meta walk from
the all-defaults accumulator, then enforce the UUID-presence rule. -/
def CharacteristicArgs.parse {U : Type} (fromString : String → Except String U)
    (items : List MetaItem) : Except String (CharacteristicArgs U) :=
  match parseNestedMeta fromString items (CharacteristicArgs.default U) with
  | Except.error e => Except.error e
  | Except.ok args =>
    if args.uuid.isNone then Except.error missingUuidMsg
    else Except.ok args

/-- A Rust type as seen by the macro: opaque token text plus its source span
(`field.ty.span()` is modelled as a number). -/
structure RustType where
  repr : String
  span : Nat
  deriving DecidableEq, Repr

/-- A struct field as handed to `Characteristic::new`: an optional identifier
(`None` for tuple-struct fields), the declared type and the visibility
(opaque passthrough). -/
structure SynField where
  ident : Option String
  ty : RustType
  vis : String
  deriving Repr

/-- The `Characteristic` descriptor of the source. -/
structure Characteristic (U : Type) where
  name : String
  ty : RustType
  args : CharacteristicArgs U
  span : Nat
  vis : String
  deriving Repr

/-- `Characteristic::new` (lines 26-34).  The Rust
`field.ident.as_ref().expect(..)` (message: Field had no Identity) panics when the field
has no identifier; the panic is embedded as `none`. -/
def Characteristic.new {U : Type} (field : SynField) (args : CharacteristicArgs U) :
    Option (Characteristic U) :=
  match field.ident with
  | none => none
  | some n =>
    some { name := n
           ty := field.ty
           args := args
           span := field.ty.span
           vis := field.vis }

/-! Infrastructure lemmas about the nested-meta walk. -/

/-- The walk over a concatenation runs the first part, then (fail-fast) the
second from the accumulator the first produced. -/
theorem parseNestedMeta_append {U : Type} (f : String → Except String U)
    (xs ys : List MetaItem) (a : CharacteristicArgs U) :
    parseNestedMeta f (xs ++ ys) a =
      match parseNestedMeta f xs a with
      | Except.error e => Except.error e
      | Except.ok b => parseNestedMeta f ys b := by
  induction xs generalizing a with
  | nil => simp [parseNestedMeta]
  | cons x xs ih =>
    simp only [List.cons_append, parseNestedMeta]
    cases processItem f a x with
    | error e => rfl
    | ok b => exact ih b

/-- Fields a single successful closure step can never touch: the descriptor
vector is never appended to, and the uuid field moves only under the key
`uuid`. -/
theorem processItem_fields {U : Type} (f : String → Except String U)
    (a : CharacteristicArgs U) (item : MetaItem) (a' : CharacteristicArgs U)
    (h : processItem f a item = Except.ok a') :
    a'._descriptor = a._descriptor ∧
      (item.path ≠ MetaPath.ident "uuid" → a'.uuid = a.uuid) := by
  rcases item with ⟨p, v⟩
  rcases p with key | s
  · simp only [processItem] at h
    by_cases h1 : key = "uuid"
    · subst h1
      rw [if_pos rfl] at h
      refine ⟨?_, fun hne => absurd rfl hne⟩
      rcases v with _ | rhs
      · exact absurd h (by simp)
      · rcases rhs with s' | s' | s' | s' <;> simp only [parseLitStr] at h
        · cases hf : f s' with
          | error e => rw [hf] at h; exact absurd h (by simp)
          | ok u =>
            rw [hf] at h
            obtain rfl := Except.ok.inj h
            rfl
        all_goals exact absurd h (by simp)
    rw [if_neg h1] at h
    by_cases h2 : key = "read"
    · subst h2
      rw [if_pos rfl] at h
      simp only [finishBare] at h
      rcases v with _ | rhs
      · obtain rfl := Except.ok.inj h; exact ⟨rfl, fun _ => rfl⟩
      · exact absurd h (by simp)
    rw [if_neg h2] at h
    by_cases h3 : key = "write"
    · subst h3
      rw [if_pos rfl] at h
      simp only [finishBare] at h
      rcases v with _ | rhs
      · obtain rfl := Except.ok.inj h; exact ⟨rfl, fun _ => rfl⟩
      · exact absurd h (by simp)
    rw [if_neg h3] at h
    by_cases h4 : key = "write_without_response"
    · subst h4
      rw [if_pos rfl] at h
      simp only [finishBare] at h
      rcases v with _ | rhs
      · obtain rfl := Except.ok.inj h; exact ⟨rfl, fun _ => rfl⟩
      · exact absurd h (by simp)
    rw [if_neg h4] at h
    by_cases h5 : key = "notify"
    · subst h5
      rw [if_pos rfl] at h
      simp only [finishBare] at h
      rcases v with _ | rhs
      · obtain rfl := Except.ok.inj h; exact ⟨rfl, fun _ => rfl⟩
      · exact absurd h (by simp)
    rw [if_neg h5] at h
    by_cases h6 : key = "indicate"
    · subst h6
      rw [if_pos rfl] at h
      simp only [finishBare] at h
      rcases v with _ | rhs
      · obtain rfl := Except.ok.inj h; exact ⟨rfl, fun _ => rfl⟩
      · exact absurd h (by simp)
    rw [if_neg h6] at h
    by_cases h7 : key = "value"
    · subst h7
      rw [if_pos rfl] at h
      rcases v with _ | rhs
      · exact absurd h (by simp)
      · rcases rhs with s' | s' | s' | s' <;> simp only [parseExpr] at h
        all_goals
          first
          | (obtain rfl := Except.ok.inj h; exact ⟨rfl, fun _ => rfl⟩)
          | exact absurd h (by simp)
    rw [if_neg h7] at h
    by_cases h8 : key = "on_write"
    · subst h8
      rw [if_pos rfl] at h
      rcases v with _ | rhs
      · exact absurd h (by simp)
      · rcases rhs with s' | s' | s' | s' <;> simp only [parseIdent] at h
        all_goals
          first
          | (obtain rfl := Except.ok.inj h; exact ⟨rfl, fun _ => rfl⟩)
          | exact absurd h (by simp)
    rw [if_neg h8] at h
    by_cases h9 : key = "on_read"
    · subst h9
      rw [if_pos rfl] at h
      rcases v with _ | rhs
      · exact absurd h (by simp)
      · rcases rhs with s' | s' | s' | s' <;> simp only [parseIdent] at h
        all_goals
          first
          | (obtain rfl := Except.ok.inj h; exact ⟨rfl, fun _ => rfl⟩)
          | exact absurd h (by simp)
    rw [if_neg h9] at h
    by_cases h10 : key = "app_managed"
    · subst h10
      rw [if_pos rfl] at h
      simp only [finishBare] at h
      rcases v with _ | rhs
      · obtain rfl := Except.ok.inj h; exact ⟨rfl, fun _ => rfl⟩
      · exact absurd h (by simp)
    rw [if_neg h10] at h
    exact absurd h (by simp)
  · simp [processItem] at h

/-- Over a whole successful walk the descriptor vector is unchanged, and so is
the uuid field as long as no item carries the key `uuid`. -/
theorem parseNestedMeta_fields {U : Type} (f : String → Except String U)
    (items : List MetaItem) (a b : CharacteristicArgs U)
    (h : parseNestedMeta f items a = Except.ok b) :
    b._descriptor = a._descriptor ∧
      ((∀ i ∈ items, i.path ≠ MetaPath.ident "uuid") → b.uuid = a.uuid) := by
  induction items generalizing a with
  | nil =>
    simp [parseNestedMeta] at h
    subst h
    exact ⟨rfl, fun _ => rfl⟩
  | cons x xs ih =>
    unfold parseNestedMeta at h
    cases hp : processItem f a x with
    | error e => rw [hp] at h; exact absurd h (by simp)
    | ok c =>
      rw [hp] at h
      obtain ⟨hd, hu⟩ := ih c h
      obtain ⟨hd', hu'⟩ := processItem_fields f a x c hp
      refine ⟨hd.trans hd', fun hall => ?_⟩
      have h1 : c.uuid = a.uuid := hu' (hall x (List.mem_cons_self x xs))
      have h2 : b.uuid = c.uuid := hu fun i hi => hall i (List.mem_cons_of_mem x hi)
      exact h2.trans h1

/-! Substring machinery, used to state that a diagnostic message mentions
every supported key. -/

/-- Does the first character list stand at the head of the second? -/
def preOf : List Char → List Char → Bool
  | [], _ => true
  | _ :: _, [] => false
  | a :: as, b :: bs => a == b && preOf as bs

/-- Does `needle` occur contiguously anywhere inside the second list? -/
def subOf (needle : List Char) : List Char → Bool
  | [] => preOf needle []
  | b :: bs => preOf needle (b :: bs) || subOf needle bs

/-- `needle` occurs as a contiguous substring of `hay`. -/
def containsSub (needle hay : String) : Bool := subOf needle.data hay.data

/-- An occurrence in the second part survives prepending the first part. -/
theorem subOf_append (n xs ys : List Char) (h : subOf n ys = true) :
    subOf n (xs ++ ys) = true := by
  induction xs with
  | nil => simpa
  | cons x xs ih => simp [subOf, ih]

/-- C1: an item sequence that omits the key `uuid` and walks through the
closure without a structural error makes `CharacteristicArgs::parse` fail with
the missing-UUID diagnostic; and every `Ok` result of `parse` carries a `some`
uuid. -/
theorem parse_missing_uuid {U : Type} (f : String → Except String U)
    (items : List MetaItem) :
    ((∃ b, parseNestedMeta f items (CharacteristicArgs.default U) = Except.ok b) →
      (∀ i ∈ items, i.path ≠ MetaPath.ident "uuid") →
      CharacteristicArgs.parse f items = Except.error missingUuidMsg) ∧
    (∀ a, CharacteristicArgs.parse f items = Except.ok a → a.uuid.isSome = true) := by
  constructor
  · rintro ⟨b, hb⟩ hno
    have huuid : b.uuid = (CharacteristicArgs.default U).uuid :=
      (parseNestedMeta_fields f items _ b hb).2 hno
    unfold CharacteristicArgs.parse
    rw [hb]
    simp [huuid, CharacteristicArgs.default]
  · intro a ha
    unfold CharacteristicArgs.parse at ha
    cases hw : parseNestedMeta f items (CharacteristicArgs.default U) with
    | error e => rw [hw] at ha; exact absurd ha (by simp)
    | ok b =>
      rw [hw] at ha
      dsimp only at ha
      by_cases hu : b.uuid.isNone
      · rw [if_pos hu] at ha; exact absurd ha (by simp)
      · rw [if_neg hu] at ha
        obtain rfl := Except.ok.inj ha
        cases hcase : b.uuid with
        | none => rw [hcase] at hu; exact absurd rfl hu
        | some u => simp [hcase]

/-- Witness for C1: the spec's own scenario `read, notify` with no uuid. -/
theorem parse_missing_uuid_witness :
    CharacteristicArgs.parse (fun _ => Except.ok (0 : Nat))
      [{ path := MetaPath.ident "read", value := none },
       { path := MetaPath.ident "notify", value := none }] =
      Except.error missingUuidMsg :=
  (parse_missing_uuid (fun _ => Except.ok (0 : Nat)) _).1 ⟨_, rfl⟩ (by decide)

/-- C4: a successful `CharacteristicArgs::parse` always returns an empty
`_descriptor` vector; indeed a `descriptor` item is rejected by the
unsupported-key arm, so no code path appends a `DescriptorArgs`. -/
theorem parse_descriptor_empty {U : Type} (f : String → Except String U) :
    (∀ items a, CharacteristicArgs.parse f items = Except.ok a →
      a._descriptor = []) ∧
    (∀ a v, processItem f a { path := MetaPath.ident "descriptor", value := v } =
      Except.error (unsupportedMsg "descriptor")) := by
  constructor
  · intro items a ha
    unfold CharacteristicArgs.parse at ha
    cases hw : parseNestedMeta f items (CharacteristicArgs.default U) with
    | error e => rw [hw] at ha; exact absurd ha (by simp)
    | ok b =>
      rw [hw] at ha
      dsimp only at ha
      by_cases hu : b.uuid.isNone
      · rw [if_pos hu] at ha; exact absurd ha (by simp)
      · rw [if_neg hu] at ha
        obtain rfl := Except.ok.inj ha
        exact (parseNestedMeta_fields f items _ b hw).1
  · intro a v
    rfl

/-- Witness for C4: a successful one-item parse has an empty descriptor
vector. -/
theorem parse_descriptor_empty_witness :
    ({ CharacteristicArgs.default String with
        uuid := some "0x2A37" })._descriptor = [] :=
  (parse_descriptor_empty (fun s => Except.ok s)).1
    [{ path := MetaPath.ident "uuid", value := some (Rhs.str "0x2A37") }] _ rfl

/-- C2 counterexample: the fixed supported-key set of the dispatch table (and
of the diagnostic's enumeration) has ten names, not nine. -/
theorem supportedKeys_not_nine :
    supportedKeys.length = 10 ∧ ¬ supportedKeys.length = 9 := by
  decide

/-- C2 (amended): an item whose key is a plain identifier outside the
supported set, reached after a successfully walked prefix, makes the parse
fail with the unsupported-key diagnostic, and that diagnostic mentions every
one of the ten supported key names. -/
theorem parse_unknown_key {U : Type} (f : String → Except String U)
    (key : String) (hkey : key ∉ supportedKeys) (pre rest : List MetaItem)
    (v : Option Rhs) (b : CharacteristicArgs U)
    (hpre : parseNestedMeta f pre (CharacteristicArgs.default U) = Except.ok b) :
    CharacteristicArgs.parse f
        (pre ++ { path := MetaPath.ident key, value := v } :: rest) =
      Except.error (unsupportedMsg key) ∧
    ∀ n ∈ supportedKeys, containsSub n (unsupportedMsg key) = true := by
  simp only [supportedKeys, List.mem_cons, List.not_mem_nil, or_false] at hkey
  push_neg at hkey
  obtain ⟨k1, k2, k3, k4, k5, k6, k7, k8, k9, k10⟩ := hkey
  constructor
  · have hstep : processItem f b { path := MetaPath.ident key, value := v } =
        Except.error (unsupportedMsg key) := by
      simp only [processItem]
      rw [if_neg k1, if_neg k2, if_neg k3, if_neg k4, if_neg k5, if_neg k6,
        if_neg k7, if_neg k9, if_neg k8, if_neg k10]
    unfold CharacteristicArgs.parse
    rw [parseNestedMeta_append, hpre]
    dsimp only
    simp only [parseNestedMeta]
    rw [hstep]
  · intro n hn
    have htail : subOf n.data unsupportedTail.data = true := by
      fin_cases hn <;> decide
    show subOf n.data (unsupportedHead ++ key ++ unsupportedTail).data = true
    rw [String.data_append, String.data_append]
    exact subOf_append n.data _ _ htail

/-- Witness for C2: the spec's own scenario `uuid = "0x2A37", foo`. -/
theorem parse_unknown_key_witness :
    CharacteristicArgs.parse (fun s => Except.ok s)
      ([{ path := MetaPath.ident "uuid", value := some (Rhs.str "0x2A37") }] ++
        { path := MetaPath.ident "foo", value := none } :: []) =
      Except.error (unsupportedMsg "foo") ∧
    ∀ n ∈ supportedKeys, containsSub n (unsupportedMsg "foo") = true :=
  parse_unknown_key (fun s => Except.ok s) "foo" (by decide)
    [{ path := MetaPath.ident "uuid", value := some (Rhs.str "0x2A37") }] [] none
    _ rfl

/-- C5: the walk is fail-fast: once an item errors after a successfully walked
prefix, the whole parse returns that item's error, whatever items follow — in
particular a later valid uuid item does not mask the earlier error. -/
theorem parse_fail_fast {U : Type} (f : String → Except String U)
    (pre : List MetaItem) (item : MetaItem) (rest : List MetaItem)
    (b : CharacteristicArgs U) (e : String)
    (hpre : parseNestedMeta f pre (CharacteristicArgs.default U) = Except.ok b)
    (hbad : processItem f b item = Except.error e) :
    CharacteristicArgs.parse f (pre ++ item :: rest) = Except.error e := by
  unfold CharacteristicArgs.parse
  rw [parseNestedMeta_append, hpre]
  dsimp only
  simp only [parseNestedMeta]
  rw [hbad]

/-- Witness for C5: second item invalid (a multi-segment path), third item a
valid uuid; the parse reports the second item's error. -/
theorem parse_fail_fast_witness :
    CharacteristicArgs.parse (fun s => Except.ok s)
      ([{ path := MetaPath.ident "read", value := none }] ++
        { path := MetaPath.nonIdent "a::b", value := none } ::
          [{ path := MetaPath.ident "uuid", value := some (Rhs.str "0x2A37") }]) =
      Except.error noIdentMsg :=
  parse_fail_fast (fun s => Except.ok s)
    [{ path := MetaPath.ident "read", value := none }]
    { path := MetaPath.nonIdent "a::b", value := none }
    [{ path := MetaPath.ident "uuid", value := some (Rhs.str "0x2A37") }]
    _ noIdentMsg rfl rfl

/-- C6: the uuid item hands the literal's inner text to the external parser:
on success the stored uuid is exactly `some` of what `Uuid::from_string`
returns for that same string in isolation, and on failure that very error is
the result of the whole parse. -/
theorem parse_uuid_roundtrip {U : Type} (f : String → Except String U)
    (s : String) (pre : List MetaItem) (b : CharacteristicArgs U)
    (hpre : parseNestedMeta f pre (CharacteristicArgs.default U) = Except.ok b) :
    (∀ u, f s = Except.ok u →
      CharacteristicArgs.parse f
          (pre ++ [{ path := MetaPath.ident "uuid", value := some (Rhs.str s) }]) =
        Except.ok { b with uuid := some u }) ∧
    (∀ e, f s = Except.error e → ∀ rest,
      CharacteristicArgs.parse f
          (pre ++ { path := MetaPath.ident "uuid", value := some (Rhs.str s) } :: rest) =
        Except.error e) := by
  constructor
  · intro u hu
    have hstep0 : processItem f b
        { path := MetaPath.ident "uuid", value := some (Rhs.str s) } =
        match f s with
        | Except.error e => Except.error e
        | Except.ok u => Except.ok { b with uuid := some u } := rfl
    have hstep : processItem f b
        { path := MetaPath.ident "uuid", value := some (Rhs.str s) } =
        Except.ok { b with uuid := some u } := by
      rw [hstep0, hu]
    unfold CharacteristicArgs.parse
    rw [parseNestedMeta_append, hpre]
    dsimp only
    simp only [parseNestedMeta]
    rw [hstep]
    rfl
  · intro e he rest
    have hstep0 : processItem f b
        { path := MetaPath.ident "uuid", value := some (Rhs.str s) } =
        match f s with
        | Except.error e => Except.error e
        | Except.ok u => Except.ok { b with uuid := some u } := rfl
    have hstep : processItem f b
        { path := MetaPath.ident "uuid", value := some (Rhs.str s) } =
        Except.error e := by
      rw [hstep0, he]
    unfold CharacteristicArgs.parse
    rw [parseNestedMeta_append, hpre]
    dsimp only
    simp only [parseNestedMeta]
    rw [hstep]

/-- Witness for C6: with the external parser instantiated to the identity on
strings, `uuid = "0x2A37"` stores exactly `some "0x2A37"`. -/
theorem parse_uuid_roundtrip_witness :
    CharacteristicArgs.parse (fun s => Except.ok s)
      ([{ path := MetaPath.ident "read", value := none }] ++
        [{ path := MetaPath.ident "uuid", value := some (Rhs.str "0x2A37") }]) =
      Except.ok { CharacteristicArgs.default String with
                    read := true, uuid := some "0x2A37" } :=
  (parse_uuid_roundtrip (fun s => Except.ok s) "0x2A37"
    [{ path := MetaPath.ident "read", value := none }] _ rfl).1 "0x2A37" rfl

/-- Walking a list of bare capability items succeeds and ORs exactly the
corresponding flags into the accumulator, leaving every other field
unchanged. -/
theorem parseNestedMeta_flags {U : Type} (f : String → Except String U)
    (S : List String) (hS : ∀ k ∈ S, k ∈ flagKeys) (a : CharacteristicArgs U) :
    parseNestedMeta f
        (S.map fun k => { path := MetaPath.ident k, value := none }) a =
      Except.ok
        { a with
          read := a.read || S.contains "read"
          write := a.write || S.contains "write"
          write_without_response :=
            a.write_without_response || S.contains "write_without_response"
          notify := a.notify || S.contains "notify"
          indicate := a.indicate || S.contains "indicate"
          app_managed := a.app_managed || S.contains "app_managed" } := by
  induction S generalizing a with
  | nil => simp [parseNestedMeta]
  | cons k S ih =>
    have hk := hS k (List.mem_cons_self k S)
    have hS' : ∀ x ∈ S, x ∈ flagKeys := fun x hx => hS x (List.mem_cons_of_mem k hx)
    simp only [List.map_cons, parseNestedMeta]
    fin_cases hk
    · have hp : processItem f a { path := MetaPath.ident "read", value := none } =
          Except.ok { a with read := true } := rfl
      rw [hp]
      dsimp only
      rw [ih hS']
      simp [List.contains_cons]
    · have hp : processItem f a { path := MetaPath.ident "write", value := none } =
          Except.ok { a with write := true } := rfl
      rw [hp]
      dsimp only
      rw [ih hS']
      simp [List.contains_cons]
    · have hp : processItem f a
          { path := MetaPath.ident "write_without_response", value := none } =
          Except.ok { a with write_without_response := true } := rfl
      rw [hp]
      dsimp only
      rw [ih hS']
      simp [List.contains_cons]
    · have hp : processItem f a { path := MetaPath.ident "notify", value := none } =
          Except.ok { a with notify := true } := rfl
      rw [hp]
      dsimp only
      rw [ih hS']
      simp [List.contains_cons]
    · have hp : processItem f a { path := MetaPath.ident "indicate", value := none } =
          Except.ok { a with indicate := true } := rfl
      rw [hp]
      dsimp only
      rw [ih hS']
      simp [List.contains_cons]
    · have hp : processItem f a
          { path := MetaPath.ident "app_managed", value := none } =
          Except.ok { a with app_managed := true } := rfl
      rw [hp]
      dsimp only
      rw [ih hS']
      simp [List.contains_cons]

/-- C3: any subset of the six bare capability keys, supplied after a valid
uuid item, parses successfully, and in the resulting record exactly the flags
named in the subset are true while every other field keeps its default. -/
theorem parse_flag_subsets {U : Type} (f : String → Except String U)
    (S : List String) (hS : ∀ k ∈ S, k ∈ flagKeys) (s : String) (u : U)
    (hu : f s = Except.ok u) :
    ∃ a, CharacteristicArgs.parse f
        ({ path := MetaPath.ident "uuid", value := some (Rhs.str s) } ::
          S.map fun k => { path := MetaPath.ident k, value := none }) =
        Except.ok a ∧
      a.uuid = some u ∧
      (a.read = true ↔ "read" ∈ S) ∧
      (a.write = true ↔ "write" ∈ S) ∧
      (a.write_without_response = true ↔ "write_without_response" ∈ S) ∧
      (a.notify = true ↔ "notify" ∈ S) ∧
      (a.indicate = true ↔ "indicate" ∈ S) ∧
      (a.app_managed = true ↔ "app_managed" ∈ S) ∧
      a.value = none ∧ a.on_write = none ∧ a.on_read = none ∧
      a._descriptor = [] := by
  have hstep0 : processItem f (CharacteristicArgs.default U)
      { path := MetaPath.ident "uuid", value := some (Rhs.str s) } =
      match f s with
      | Except.error e => Except.error e
      | Except.ok u =>
        Except.ok { CharacteristicArgs.default U with uuid := some u } := rfl
  have hstep : processItem f (CharacteristicArgs.default U)
      { path := MetaPath.ident "uuid", value := some (Rhs.str s) } =
      Except.ok { CharacteristicArgs.default U with uuid := some u } := by
    rw [hstep0, hu]
  refine ⟨{ CharacteristicArgs.default U with
      uuid := some u
      read := S.contains "read"
      write := S.contains "write"
      write_without_response := S.contains "write_without_response"
      notify := S.contains "notify"
      indicate := S.contains "indicate"
      app_managed := S.contains "app_managed" },
    ?_, ?_, ?_, ?_, ?_, ?_, ?_, ?_, ?_, ?_, ?_, ?_⟩
  · unfold CharacteristicArgs.parse
    simp only [parseNestedMeta]
    rw [hstep]
    dsimp only
    rw [parseNestedMeta_flags f S hS]
    rfl
  all_goals
    first
    | rfl
    | simp [List.contains, List.elem_iff]

/-- Witness for C3: the subset `read, notify` with `uuid = "0x2A37"`. -/
theorem parse_flag_subsets_witness :
    ∃ a, CharacteristicArgs.parse (fun s => Except.ok s)
        ({ path := MetaPath.ident "uuid", value := some (Rhs.str "0x2A37") } ::
          ["read", "notify"].map
            fun k => { path := MetaPath.ident k, value := none }) =
        Except.ok a ∧
      a.uuid = some "0x2A37" ∧
      (a.read = true ↔ "read" ∈ ["read", "notify"]) ∧
      (a.write = true ↔ "write" ∈ ["read", "notify"]) ∧
      (a.write_without_response = true ↔
        "write_without_response" ∈ ["read", "notify"]) ∧
      (a.notify = true ↔ "notify" ∈ ["read", "notify"]) ∧
      (a.indicate = true ↔ "indicate" ∈ ["read", "notify"]) ∧
      (a.app_managed = true ↔ "app_managed" ∈ ["read", "notify"]) ∧
      a.value = none ∧ a.on_write = none ∧ a.on_read = none ∧
      a._descriptor = [] :=
  parse_flag_subsets (fun s => Except.ok s) ["read", "notify"] (by decide)
    "0x2A37" "0x2A37" rfl

/-- C7: `Characteristic::new` on a field carrying a resolvable name always
succeeds, renders that identifier as the name and keeps the supplied
already-validated args unchanged (with the type, its span and the visibility
passed through); only a nameless field hits the `expect` abort, embedded as
`none`. -/
theorem characteristic_new_total {U : Type} (field : SynField)
    (args : CharacteristicArgs U) :
    (∀ n, field.ident = some n →
      Characteristic.new field args =
        some { name := n, ty := field.ty, args := args,
               span := field.ty.span, vis := field.vis }) ∧
    (field.ident = none → Characteristic.new field args = none) := by
  constructor
  · intro n hn
    unfold Characteristic.new
    rw [hn]
  · intro hn
    unfold Characteristic.new
    rw [hn]

/-- Witness for C7: a named field assembles without failure. -/
theorem characteristic_new_total_witness :
    Characteristic.new
        { ident := some "heart_rate", ty := { repr := "u8", span := 7 },
          vis := "pub" }
        (CharacteristicArgs.default Nat) =
      some { name := "heart_rate", ty := { repr := "u8", span := 7 },
             args := CharacteristicArgs.default Nat, span := 7, vis := "pub" } :=
  (characteristic_new_total
    { ident := some "heart_rate", ty := { repr := "u8", span := 7 },
      vis := "pub" }
    (CharacteristicArgs.default Nat)).1 "heart_rate" rfl

/-- C8 counterexample: a bare `uuid` item produces the code's diagnostic,
which has two spaces before `i.e.`; it differs from the single-spaced
message the claim quotes. -/
theorem uuid_value_msg_cex :
    CharacteristicArgs.parse (fun _ => Except.ok (0 : Nat))
        [{ path := MetaPath.ident "uuid", value := none }] =
      Except.error uuidValueMsg ∧
    uuidValueMsg ≠
      "uuid must be followed by " ++ quoteCh ++ "= [data]" ++ quoteCh ++
        ". i.e. uuid = " ++ quoteCh ++ "0x2A37" ++ quoteCh := by
  constructor
  · rfl
  · decide

/-- C8 (amended): each value-requiring key without the `=`-value form fails
the parse with its own diagnostic naming the exact required syntax — for
`uuid` the diagnostic with two spaces before `i.e.` — and the four
diagnostics are pairwise distinct. -/
theorem value_required_diagnostics {U : Type} (f : String → Except String U)
    (pre rest : List MetaItem) (b : CharacteristicArgs U)
    (hpre : parseNestedMeta f pre (CharacteristicArgs.default U) = Except.ok b) :
    (CharacteristicArgs.parse f
        (pre ++ { path := MetaPath.ident "uuid", value := none } :: rest) =
      Except.error uuidValueMsg) ∧
    (CharacteristicArgs.parse f
        (pre ++ { path := MetaPath.ident "value", value := none } :: rest) =
      Except.error valueValueMsg) ∧
    (CharacteristicArgs.parse f
        (pre ++ { path := MetaPath.ident "on_write", value := none } :: rest) =
      Except.error onWriteValueMsg) ∧
    (CharacteristicArgs.parse f
        (pre ++ { path := MetaPath.ident "on_read", value := none } :: rest) =
      Except.error onReadValueMsg) ∧
    uuidValueMsg ≠ valueValueMsg ∧ uuidValueMsg ≠ onWriteValueMsg ∧
    uuidValueMsg ≠ onReadValueMsg ∧ valueValueMsg ≠ onWriteValueMsg ∧
    valueValueMsg ≠ onReadValueMsg ∧ onWriteValueMsg ≠ onReadValueMsg := by
  refine ⟨?_, ?_, ?_, ?_,
    by decide, by decide, by decide, by decide, by decide, by decide⟩
  · unfold CharacteristicArgs.parse
    rw [parseNestedMeta_append, hpre]
    dsimp only
    simp only [parseNestedMeta]
    rw [show processItem f b { path := MetaPath.ident "uuid", value := none } =
        Except.error uuidValueMsg from rfl]
  · unfold CharacteristicArgs.parse
    rw [parseNestedMeta_append, hpre]
    dsimp only
    simp only [parseNestedMeta]
    rw [show processItem f b { path := MetaPath.ident "value", value := none } =
        Except.error valueValueMsg from rfl]
  · unfold CharacteristicArgs.parse
    rw [parseNestedMeta_append, hpre]
    dsimp only
    simp only [parseNestedMeta]
    rw [show processItem f b { path := MetaPath.ident "on_write", value := none } =
        Except.error onWriteValueMsg from rfl]
  · unfold CharacteristicArgs.parse
    rw [parseNestedMeta_append, hpre]
    dsimp only
    simp only [parseNestedMeta]
    rw [show processItem f b { path := MetaPath.ident "on_read", value := none } =
        Except.error onReadValueMsg from rfl]

/-- Witness for C8: a lone bare `uuid` item yields the uuid diagnostic. -/
theorem value_required_diagnostics_witness :
    CharacteristicArgs.parse (fun _ => Except.ok (0 : Nat))
        ([] ++ { path := MetaPath.ident "uuid", value := none } :: []) =
      Except.error uuidValueMsg :=
  (value_required_diagnostics (fun _ => Except.ok (0 : Nat)) [] [] _ rfl).1

/-- C9 counterexample: a multi-segment key makes the parse fail with the
message `no ident`, which is not the message `no identifier` the claim
quotes. -/
theorem no_ident_msg_cex :
    CharacteristicArgs.parse (fun _ => Except.ok (0 : Nat))
        [{ path := MetaPath.nonIdent "a::b", value := none }] =
      Except.error noIdentMsg ∧
    noIdentMsg ≠ "no identifier" := by
  constructor
  · rfl
  · decide

/-- C9 (amended): an item whose key is not a simple identifier fails the
parse immediately with the generic diagnostic `no ident`, independently of
the path's text, of any attached value and of every later item: the closure
errors before dispatching on any key text. -/
theorem nonident_key_fails {U : Type} (f : String → Except String U)
    (pre : List MetaItem) (b : CharacteristicArgs U)
    (hpre : parseNestedMeta f pre (CharacteristicArgs.default U) = Except.ok b)
    (p : String) (v : Option Rhs) (rest : List MetaItem) :
    CharacteristicArgs.parse f
        (pre ++ { path := MetaPath.nonIdent p, value := v } :: rest) =
      Except.error noIdentMsg := by
  unfold CharacteristicArgs.parse
  rw [parseNestedMeta_append, hpre]
  dsimp only
  simp only [parseNestedMeta]
  rw [show processItem f b { path := MetaPath.nonIdent p, value := v } =
      Except.error noIdentMsg from rfl]

/-- Witness for C9: a multi-segment path as the first item, followed by a
valid uuid item. -/
theorem nonident_key_fails_witness :
    CharacteristicArgs.parse (fun _ => Except.ok (0 : Nat))
        ([] ++ { path := MetaPath.nonIdent "foo::bar", value := none } ::
          [{ path := MetaPath.ident "uuid", value := some (Rhs.str "0x2A37") }]) =
      Except.error noIdentMsg :=
  nonident_key_fails (fun _ => Except.ok (0 : Nat)) [] _ rfl "foo::bar" none
    [{ path := MetaPath.ident "uuid", value := some (Rhs.str "0x2A37") }]

/-- C10: `on_read = <ident>` stores exactly `some` of that identifier,
unevaluated and unresolved; symmetrically `on_write`, and `value = <expr>`
stores the expression exactly as parsed; a full parse of
`uuid = "<s>", on_read = <c>` exhibits the stored callback. -/
theorem callback_pass_through {U : Type} (f : String → Except String U) :
    (∀ a c, processItem f a
        { path := MetaPath.ident "on_read", value := some (Rhs.identTok c) } =
      Except.ok { a with on_read := some c }) ∧
    (∀ a c, processItem f a
        { path := MetaPath.ident "on_write", value := some (Rhs.identTok c) } =
      Except.ok { a with on_write := some c }) ∧
    (∀ a r e, parseExpr r = Except.ok e → processItem f a
        { path := MetaPath.ident "value", value := some r } =
      Except.ok { a with value := some e }) ∧
    (∀ s u c, f s = Except.ok u →
      CharacteristicArgs.parse f
          [{ path := MetaPath.ident "uuid", value := some (Rhs.str s) },
           { path := MetaPath.ident "on_read",
             value := some (Rhs.identTok c) }] =
        Except.ok { CharacteristicArgs.default U with
                      uuid := some u, on_read := some c }) := by
  refine ⟨fun a c => rfl, fun a c => rfl, ?_, ?_⟩
  · intro a r e he
    rcases r with s' | s' | s' | s'
    · simp only [parseExpr] at he
      obtain rfl := Except.ok.inj he
      rfl
    · simp only [parseExpr] at he
      obtain rfl := Except.ok.inj he
      rfl
    · simp only [parseExpr] at he
      obtain rfl := Except.ok.inj he
      rfl
    · exact absurd he (by simp [parseExpr])
  · intro s u c hu
    have hstep : processItem f (CharacteristicArgs.default U)
        { path := MetaPath.ident "uuid", value := some (Rhs.str s) } =
        Except.ok { CharacteristicArgs.default U with uuid := some u } := by
      rw [show processItem f (CharacteristicArgs.default U)
          { path := MetaPath.ident "uuid", value := some (Rhs.str s) } =
          match f s with
          | Except.error e => Except.error e
          | Except.ok u =>
            Except.ok { CharacteristicArgs.default U with uuid := some u }
          from rfl, hu]
    unfold CharacteristicArgs.parse
    simp only [parseNestedMeta]
    rw [hstep]
    dsimp only
    rfl

/-- Witness for C10: `uuid = "0x2A37", on_read = my_callback` stores
`some "my_callback"`. -/
theorem callback_pass_through_witness :
    CharacteristicArgs.parse (fun s => Except.ok s)
        [{ path := MetaPath.ident "uuid", value := some (Rhs.str "0x2A37") },
         { path := MetaPath.ident "on_read",
           value := some (Rhs.identTok "my_callback") }] =
      Except.ok { CharacteristicArgs.default String with
                    uuid := some "0x2A37", on_read := some "my_callback" } :=
  (callback_pass_through (fun s => Except.ok s)).2.2.2 "0x2A37" "0x2A37"
    "my_callback" rfl
